import Mathlib

/-!
# Verification of the `pare` clipboard-history program

Shallow embedding of `src/main.rs`. The program keeps its clips in a SQLite
table `clips(clip TEXT PRIMARY KEY)` and builds every SQL statement by string
interpolation of the clip text (`format!`). We model:

* the exact query strings the program constructs (`ingestQuery`,
  `daemonOtherQuery`, `deleteQuery`);
* SQLite's execution of those strings (`execScript`): statements are parsed
  one at a time and executed as they parse, as `sqlite3_exec` does, so
  statements before a syntax error remain applied.  The parser covers the
  statement forms the program emits — `CREATE TABLE IF NOT EXISTS clips ...`,
  `INSERT OR IGNORE INTO clips (clip) VALUES ('<lit>')`,
  `DELETE FROM clips WHERE clip = '<lit>'` — with SQLite string-literal
  syntax (a quote ends the literal, `''` is an escaped quote).  Constructed
  text falling outside these forms is a syntax error, as it is in SQLite for
  every input used in the theorems below;
* the store itself as the list of rows of the `clips` table;
* the TUI event handler `handle_events` (`handleKey`), the application state
  `AppState`, and the daemon loops (`daemonLinuxTick`, `daemonOtherTick`).
-/

set_option maxRecDepth 8000

namespace Pare

/-- The single-quote character used by the SQL literal syntax. -/
def sq : Char := '\''

/-- The single-quote character as a one-character string. -/
def sqs : String := String.mk [sq]

/-- Whitespace as accepted between SQL statements. -/
def isSpace (c : Char) : Bool := c = ' ' || c = '\n' || c = '\t' || c = '\r'

/-- Drop an expected prefix from a character list, or fail. -/
def dropPfx : List Char → List Char → Option (List Char)
  | [], cs => some cs
  | _ :: _, [] => none
  | p :: ps, c :: cs => if p = c then dropPfx ps cs else none

/-- Parse the body of a SQLite single-quoted string literal, starting after
the opening quote: a quote ends the literal, a doubled quote stands for one
quote character.  Returns the denoted value and the input after the closing
quote. -/
def parseLit : List Char → Option (List Char × List Char)
  | [] => none
  | c :: rest =>
    if c = '\'' then
      match rest with
      | [] => some ([], [])
      | d :: rest' =>
        if d = '\'' then (parseLit rest').map (fun vr => ('\'' :: vr.1, vr.2))
        else some ([], rest)
    else (parseLit rest).map (fun vr => (c :: vr.1, vr.2))

/-- The statements of the SQL fragment the program emits. -/
inductive SqlStmt where
  | createClips : SqlStmt
  | insertOrIgnore (v : String) : SqlStmt
  | deleteWhere (v : String) : SqlStmt
deriving DecidableEq

/-- `CREATE TABLE IF NOT EXISTS clips (clip TEXT PRIMARY KEY);` (Linux
daemon and ingest path schema). -/
def createTextStmt : String := "CREATE TABLE IF NOT EXISTS clips (clip TEXT PRIMARY KEY);"

/-- `CREATE TABLE IF NOT EXISTS clips (clip STRING PRIMARY KEY);` (non-Linux
daemon schema). -/
def createStringStmt : String := "CREATE TABLE IF NOT EXISTS clips (clip STRING PRIMARY KEY);"

/-- Text of an `INSERT OR IGNORE` statement up to the opening quote of the
value literal. -/
def insertPfx : String := "INSERT OR IGNORE INTO clips (clip) VALUES (" ++ sqs

/-- Text of a `DELETE` statement up to the opening quote of the value
literal. -/
def deletePfx : String := "DELETE FROM clips WHERE clip = " ++ sqs

/-- Parse one statement of the fragment from the front of the input. -/
def parseOne (cs : List Char) : Option (SqlStmt × List Char) :=
  match dropPfx createTextStmt.data cs with
  | some rest => some (.createClips, rest)
  | none =>
  match dropPfx createStringStmt.data cs with
  | some rest => some (.createClips, rest)
  | none =>
  match dropPfx insertPfx.data cs with
  | some rest =>
    match parseLit rest with
    | some vr =>
      match dropPfx ");".data vr.2 with
      | some rest₂ => some (.insertOrIgnore ⟨vr.1⟩, rest₂)
      | none => none
    | none => none
  | none =>
  match dropPfx deletePfx.data cs with
  | some rest =>
    match parseLit rest with
    | some vr =>
      match dropPfx ";".data vr.2 with
      | some rest₂ => some (.deleteWhere ⟨vr.1⟩, rest₂)
      | none => none
    | none => none
  | none => none

/-- `INSERT OR IGNORE` against a `PRIMARY KEY` column: append the value
unless a row already equals it. -/
def insertOrIgnore (v : String) (store : List String) : List String :=
  if v ∈ store then store else store ++ [v]

/-- Effect of one statement on the `clips` table (a list of rows). -/
def runStmt : SqlStmt → List String → List String
  | .createClips, store => store
  | .insertOrIgnore v, store => insertOrIgnore v store
  | .deleteWhere v, store => store.filter (fun r => r != v)

/-- Execute a script statement by statement, as `sqlite3_exec` does:
statements run as they parse, and a syntax error stops execution with the
earlier statements already applied.  The `Bool` is `true` on success.  The
fuel argument dominates the number of statements; callers pass the script
length, which always suffices because each statement consumes at least one
character. -/
def runScript : Nat → List Char → List String → List String × Bool
  | 0, cs, store =>
    if cs.dropWhile isSpace = [] then (store, true) else (store, false)
  | fuel + 1, cs, store =>
    let cs' := cs.dropWhile isSpace
    if cs' = [] then (store, true)
    else
      match parseOne cs' with
      | none => (store, false)
      | some sr => runScript fuel sr.2 (runStmt sr.1 store)

/-- Model of `Connection::execute` on a constructed query string. -/
def execScript (q : String) (store : List String) : List String × Bool :=
  runScript (q.data.length + 1) q.data store

/-- The query built at `main.rs:96-99` (ingest path) and `main.rs:209-212`
(Linux daemon): the two-statement script with the clip text interpolated
between single quotes (13 spaces of literal indentation before the second
statement, as in the Rust string literal). -/
def ingestQuery (clip : String) : String :=
  createTextStmt ++ "\n             " ++ insertPfx ++ clip ++ sqs ++ ");"

/-- The query built at `main.rs:238-241` (non-Linux daemon): STRING schema
and 17 spaces of literal indentation. -/
def daemonOtherQuery (current : String) : String :=
  createStringStmt ++ "\n                 " ++ insertPfx ++ current ++ sqs ++ ");"

/-- The query built at `main.rs:148` (Browser delete). -/
def deleteQuery (text : String) : String :=
  deletePfx ++ text ++ sqs ++ ";"

/-- The clip text contains no single quote, so it embeds into a SQL string
literal unchanged. -/
def NoQuote (s : String) : Prop := '\'' ∉ s.data

instance (s : String) : Decidable (NoQuote s) := by
  unfold NoQuote; infer_instance

/-! ## The Browser (interactive TUI), `main.rs:54-87` and `handle_events`,
`main.rs:115-161` -/

/-- The key presses `handle_events` distinguishes (`main.rs:118-156`);
`other` stands for every key of the wildcard arm and for a poll timeout. -/
inductive Key where
  | esc | down | up | enter | delete | other
deriving DecidableEq

/-- The Browser state (`main.rs:183-187`): the snapshot rows (each source
row is a `[String; 1]`, modelled by its single entry), the `clips` table of
the connection, and the `TableState` selection. -/
structure AppState where
  db_rows : List String
  store : List String
  selected : Option Nat
deriving DecidableEq

/-- `AppState::new` (`main.rs:190-196`):
`TableState::default().with_selected(0)`. -/
def AppState.new (db_rows store : List String) : AppState :=
  ⟨db_rows, store, some 0⟩

/-- Outcome of one `handle_events` call: `ok state quit clipWrite` for
`Ok(quit)` with `clipWrite` the text written to the clipboard (Enter only),
`err` for a propagated `Err` (the failed SQL delete, `main.rs:149-153`), and
`panicked` for a Rust panic (`Vec` index or `remove` out of bounds, or
`unwrap` of `None`); a panic aborts before any further mutation. -/
inductive StepResult where
  | ok (s : AppState) (quit : Bool) (clipWrite : Option String)
  | err (s : AppState)
  | panicked (s : AppState)
deriving DecidableEq

/-- `handle_events` (`main.rs:115-161`), one key press.
* `Esc` returns `Ok(true)`.
* `Down`: `max_idx = len.saturating_sub(1)`; the new selection is `max_idx`
  when the current one equals `max_idx` and `selected + 1` otherwise — no
  clamping when the selection is already past the end.
* `Up`: `selected.saturating_sub(1)`.
* `Enter`: on a non-empty snapshot, writes `db_rows[selected.unwrap()]` to
  the clipboard and returns `Ok(true)`; the indexing panics when the
  selection is out of bounds.  On an empty snapshot the arm does nothing.
* `Delete`: on a non-empty snapshot, `Vec::remove(selected)` (which panics
  when `selected ≥ len`), then executes the interpolated `DELETE` query; an
  execution error propagates as `Err`.  The selection is not updated. -/
def handleKey (s : AppState) : Key → StepResult
  | .esc => .ok s true none
  | .down =>
    let maxIdx := s.db_rows.length - 1
    let selected := s.selected.getD 0
    let selection := if selected = maxIdx then maxIdx else selected + 1
    .ok { s with selected := some selection } false none
  | .up => .ok { s with selected := some (s.selected.getD 0 - 1) } false none
  | .enter =>
    if s.db_rows.isEmpty then .ok s false none
    else
      match s.selected with
      | none => .panicked s
      | some i =>
        if h : i < s.db_rows.length then .ok s true (some (s.db_rows.get ⟨i, h⟩))
        else .panicked s
  | .delete =>
    let selected := s.selected.getD 0
    if s.db_rows.isEmpty then .ok s false none
    else if h : selected < s.db_rows.length then
      let clip := s.db_rows.get ⟨selected, h⟩
      let rows' := s.db_rows.eraseIdx selected
      let r := execScript (deleteQuery clip) s.store
      if r.2 then .ok { s with db_rows := rows', store := r.1 } false none
      else .err { s with db_rows := rows', store := r.1 }
    else .panicked s
  | .other => .ok s false none

/-- Outcome of a Browser session prefix (`main.rs:73-77`): still in the
loop, exited via `Ok(true)` (with the clipboard write, if any), exited via a
propagated error, or aborted by a panic. -/
inductive RunOutcome where
  | running (s : AppState)
  | quit (s : AppState) (clipWrite : Option String)
  | errored (s : AppState)
  | panicked (s : AppState)
deriving DecidableEq

/-- Run the Browser event loop over a sequence of key presses. -/
def runKeys (s : AppState) : List Key → RunOutcome
  | [] => .running s
  | k :: ks =>
    match handleKey s k with
    | .ok s' false _ => runKeys s' ks
    | .ok s' true w => .quit s' w
    | .err s' => .errored s'
    | .panicked s' => .panicked s'

/-! ## The Ingestor (stdin path), `main.rs:88-112` -/

/-- The stdin path of `main`: read all of stdin into `clip`, execute the
interpolated insert script, then write `clip` to the clipboard.  There is no
emptiness check.  Result: the final store, the clipboard write if reached,
and `true` iff the run exited `Ok`. -/
def ingestRun (input : String) (store : List String) :
    List String × Option String × Bool :=
  let r := execScript (ingestQuery input) store
  if r.2 then (r.1, some input, true) else (r.1, none, false)

/-! ## The Monitor (daemon mode), `main.rs:199-251` -/

/-- One tick of the Linux daemon loop (`main.rs:200-223`):
`clipboard.get_text().unwrap_or("pare_daemonized")`; when the text differs
from the sentinel, run the interpolated insert script and re-assert
clipboard ownership; otherwise sleep.  `readResult` is `none` on a clipboard
read failure.  The `Bool` is `false` when the insert failed (the daemon then
exits with the error). -/
def daemonLinuxTick (store : List String) (readResult : Option String) :
    List String × Bool :=
  let text := readResult.getD "pare_daemonized"
  if text ≠ "pare_daemonized" then execScript (ingestQuery text) store
  else (store, true)

/-- Iterate `daemonLinuxTick` over a list of clipboard reads, stopping when
an insert fails (the daemon exits). -/
def daemonLinuxTicks (store : List String) : List (Option String) → List String × Bool
  | [] => (store, true)
  | r :: rs =>
    let t := daemonLinuxTick store r
    if t.2 then daemonLinuxTicks t.1 rs else (t.1, false)

/-- One tick of the non-Linux daemon loop (`main.rs:229-251`):
`clipboard.get_text().unwrap_or("pared_daemonized")`; when the text differs
from `previous`, run the interpolated insert script (STRING schema) and set
`previous` to it; otherwise sleep.  Returns the new store, the new
`previous`, and `false` when the insert failed. -/
def daemonOtherTick (store : List String) (previous : String)
    (readResult : Option String) : List String × String × Bool :=
  let current := readResult.getD "pared_daemonized"
  if current ≠ previous then
    let r := execScript (daemonOtherQuery current) store
    if r.2 then (r.1, current, true) else (r.1, previous, false)
  else (store, previous, true)

/-- A positionwise mismatch between two character lists within their common
length. -/
def misMatch : List Char → List Char → Bool
  | p :: ps, c :: cs => p ≠ c || misMatch ps cs
  | _, _ => false

/-- The store component of a `handle_events` outcome. -/
def storeOf : StepResult → List String
  | .ok s _ _ => s.store
  | .err s => s.store
  | .panicked s => s.store

/-- A store value whose text injects a second `DELETE` statement when
interpolated into the Browser's delete query. -/
def injClip : String := "a" ++ sqs ++ "; DELETE FROM clips WHERE clip = " ++ sqs ++ "b"

/-! ## Sanity evaluations of the model -/

example : execScript (ingestQuery "abc") [] = (["abc"], true) := by decide
example : execScript (ingestQuery "abc") ["abc"] = (["abc"], true) := by decide
example : execScript (deleteQuery "abc") ["x", "abc"] = (["x"], true) := by decide
example : execScript (daemonOtherQuery "abc") [] = (["abc"], true) := by decide

/-! ## Parsing lemmas: how the constructed scripts execute symbolically -/

theorem dropPfx_append (p r : List Char) : dropPfx p (p ++ r) = some r := by
  induction p with
  | nil => rfl
  | cons c ps ih => simp [dropPfx, ih]

theorem dropPfx_none_of_misMatch {p q : List Char} (h : misMatch p q = true)
    (r : List Char) : dropPfx p (q ++ r) = none := by
  induction p generalizing q with
  | nil => simp [misMatch] at h
  | cons c ps ih =>
    cases q with
    | nil => simp [misMatch] at h
    | cons d qs =>
      simp only [misMatch, Bool.or_eq_true, decide_eq_true_eq] at h
      rcases h with h | h
      · simp [dropPfx, h]
      · by_cases hcd : c = d
        · simpa [dropPfx, hcd] using ih h
        · simp [dropPfx, hcd]

theorem parseLit_append (v rest : List Char) (hv : '\'' ∉ v)
    (hr : rest.head? ≠ some '\'') : parseLit (v ++ '\'' :: rest) = some (v, rest) := by
  induction v with
  | nil =>
    cases rest with
    | nil => rfl
    | cons c cs =>
      have hc : c ≠ '\'' := by
        intro h; exact hr (by simp [h])
      simp [parseLit, hc]
  | cons c v ih =>
    have hc : c ≠ '\'' := by
      intro h; exact hv (by simp [h])
    have ih' := ih (fun h => hv (List.mem_cons_of_mem _ h))
    rw [parseLit.eq_def]
    simp [hc, ih']

example : misMatch createTextStmt.data insertPfx.data = true := by decide
example : misMatch createTextStmt.data createStringStmt.data = true := by decide
example : misMatch createTextStmt.data deletePfx.data = true := by decide

theorem parseOne_createText (r : List Char) :
    parseOne (createTextStmt.data ++ r) = some (.createClips, r) := by
  simp [parseOne, dropPfx_append]

theorem parseOne_createString (r : List Char) :
    parseOne (createStringStmt.data ++ r) = some (.createClips, r) := by
  simp [parseOne, dropPfx_none_of_misMatch (p := createTextStmt.data)
    (q := createStringStmt.data) (by decide) r, dropPfx_append]

theorem parseOne_insert (x : String) (r : List Char) (hx : NoQuote x) :
    parseOne (insertPfx.data ++ x.data ++ '\'' :: ')' :: ';' :: r) =
      some (.insertOrIgnore x, r) := by
  have h1 : dropPfx createTextStmt.data
      (insertPfx.data ++ (x.data ++ '\'' :: ')' :: ';' :: r)) = none :=
    dropPfx_none_of_misMatch (by decide) _
  have h2 : dropPfx createStringStmt.data
      (insertPfx.data ++ (x.data ++ '\'' :: ')' :: ';' :: r)) = none :=
    dropPfx_none_of_misMatch (by decide) _
  have h3 : dropPfx insertPfx.data
      (insertPfx.data ++ (x.data ++ '\'' :: ')' :: ';' :: r)) =
        some (x.data ++ '\'' :: ')' :: ';' :: r) := dropPfx_append _ _
  have h4 : parseLit (x.data ++ '\'' :: ')' :: ';' :: r) =
      some (x.data, ')' :: ';' :: r) := parseLit_append _ _ hx (by simp)
  have h5 : dropPfx ");".data (')' :: ';' :: r) = some r := by
    simpa using dropPfx_append ");".data r
  simp [parseOne, List.append_assoc, h1, h2, h3, h4, h5]

theorem parseOne_delete (x : String) (r : List Char) (hx : NoQuote x) :
    parseOne (deletePfx.data ++ x.data ++ '\'' :: ';' :: r) =
      some (.deleteWhere x, r) := by
  have h1 : dropPfx createTextStmt.data
      (deletePfx.data ++ (x.data ++ '\'' :: ';' :: r)) = none :=
    dropPfx_none_of_misMatch (by decide) _
  have h2 : dropPfx createStringStmt.data
      (deletePfx.data ++ (x.data ++ '\'' :: ';' :: r)) = none :=
    dropPfx_none_of_misMatch (by decide) _
  have h2' : dropPfx insertPfx.data
      (deletePfx.data ++ (x.data ++ '\'' :: ';' :: r)) = none :=
    dropPfx_none_of_misMatch (by decide) _
  have h3 : dropPfx deletePfx.data
      (deletePfx.data ++ (x.data ++ '\'' :: ';' :: r)) =
        some (x.data ++ '\'' :: ';' :: r) := dropPfx_append _ _
  have h4 : parseLit (x.data ++ '\'' :: ';' :: r) =
      some (x.data, ';' :: r) := parseLit_append _ _ hx (by simp)
  have h5 : dropPfx ";".data (';' :: r) = some r := by
    simpa using dropPfx_append ";".data r
  simp [parseOne, List.append_assoc, h1, h2, h2', h3, h4, h5]

theorem dropWhile_append_keep (q r : List Char) (h : q.dropWhile isSpace = q)
    (hq : q ≠ []) : (q ++ r).dropWhile isSpace = q ++ r := by
  rw [List.dropWhile_append, h]
  simp [hq]

theorem runScript_nil (fuel : Nat) (store : List String) :
    runScript fuel [] store = (store, true) := by
  cases fuel <;> simp [runScript]

theorem runScript_step (fuel : Nat) (cs : List Char) (store : List String)
    (st : SqlStmt) (r : List Char)
    (hne : cs.dropWhile isSpace ≠ [])
    (hp : parseOne (cs.dropWhile isSpace) = some (st, r)) :
    runScript (fuel + 1) cs store = runScript fuel r (runStmt st store) := by
  simp [runScript, hne, hp]

/-- Decomposition of the ingest / Linux-daemon script into its statements. -/
theorem ingestQuery_data (x : String) :
    (ingestQuery x).data =
      createTextStmt.data ++ ("\n             ".data ++
        (insertPfx.data ++ (x.data ++ '\'' :: ')' :: ';' :: []))) := by
  have hq : sqs.data = ['\''] := by decide
  have ht : ");".data = [')', ';'] := by decide
  simp [ingestQuery, String.data_append, hq, ht, List.append_assoc]

/-- Decomposition of the non-Linux daemon script into its statements. -/
theorem daemonOtherQuery_data (x : String) :
    (daemonOtherQuery x).data =
      createStringStmt.data ++ ("\n                 ".data ++
        (insertPfx.data ++ (x.data ++ '\'' :: ')' :: ';' :: []))) := by
  have hq : sqs.data = ['\''] := by decide
  have ht : ");".data = [')', ';'] := by decide
  simp [daemonOtherQuery, String.data_append, hq, ht, List.append_assoc]

/-- Decomposition of the Browser delete query. -/
theorem deleteQuery_data (x : String) :
    (deleteQuery x).data = deletePfx.data ++ (x.data ++ '\'' :: ';' :: []) := by
  have hq : sqs.data = ['\''] := by decide
  have ht : ";".data = [';'] := by decide
  simp [deleteQuery, String.data_append, hq, ht, List.append_assoc]

/-- A quote-free clip makes the interpolated insert script execute as the
intended `INSERT OR IGNORE`: dedup against the current store, success. -/
theorem execScript_ingestQuery (x : String) (store : List String) (hx : NoQuote x)
    (fuel : Nat) (hf : 2 ≤ fuel) :
    runScript fuel (ingestQuery x).data store =
      (runStmt (.insertOrIgnore x) store, true) := by
  obtain ⟨f, rfl⟩ : ∃ f, fuel = f + 2 := ⟨fuel - 2, by omega⟩
  rw [ingestQuery_data]
  rw [runScript_step (f + 1) _ store .createClips _ ?hne1 ?hp1]
  case hne1 =>
    rw [dropWhile_append_keep _ _ (by decide) (by decide)]
    simp [createTextStmt]
  case hp1 =>
    rw [dropWhile_append_keep _ _ (by decide) (by decide)]
    exact parseOne_createText _
  rw [runScript_step f _ _ (.insertOrIgnore x) [] ?hne2 ?hp2]
  case hne2 =>
    rw [List.dropWhile_append_of_pos (by decide), dropWhile_append_keep _ _ (by decide) (by decide)]
    simp [insertPfx]
  case hp2 =>
    rw [List.dropWhile_append_of_pos (by decide), dropWhile_append_keep _ _ (by decide) (by decide)]
    rw [← List.append_assoc]
    exact parseOne_insert x [] hx
  simp [runScript_nil, runStmt]

/-- Same, for the non-Linux daemon script. -/
theorem execScript_daemonOtherQuery (x : String) (store : List String) (hx : NoQuote x)
    (fuel : Nat) (hf : 2 ≤ fuel) :
    runScript fuel (daemonOtherQuery x).data store =
      (runStmt (.insertOrIgnore x) store, true) := by
  obtain ⟨f, rfl⟩ : ∃ f, fuel = f + 2 := ⟨fuel - 2, by omega⟩
  rw [daemonOtherQuery_data]
  rw [runScript_step (f + 1) _ store .createClips _ ?hne1 ?hp1]
  case hne1 =>
    rw [dropWhile_append_keep _ _ (by decide) (by decide)]
    simp [createStringStmt]
  case hp1 =>
    rw [dropWhile_append_keep _ _ (by decide) (by decide)]
    exact parseOne_createString _
  rw [runScript_step f _ _ (.insertOrIgnore x) [] ?hne2 ?hp2]
  case hne2 =>
    rw [List.dropWhile_append_of_pos (by decide), dropWhile_append_keep _ _ (by decide) (by decide)]
    simp [insertPfx]
  case hp2 =>
    rw [List.dropWhile_append_of_pos (by decide), dropWhile_append_keep _ _ (by decide) (by decide)]
    rw [← List.append_assoc]
    exact parseOne_insert x [] hx
  simp [runScript_nil, runStmt]

/-- A quote-free clip makes the interpolated delete query execute as the
intended single-row `DELETE`: success, rows equal to the clip removed. -/
theorem execScript_deleteQuery (x : String) (store : List String) (hx : NoQuote x)
    (fuel : Nat) (hf : 1 ≤ fuel) :
    runScript fuel (deleteQuery x).data store =
      (runStmt (.deleteWhere x) store, true) := by
  obtain ⟨f, rfl⟩ : ∃ f, fuel = f + 1 := ⟨fuel - 1, by omega⟩
  rw [deleteQuery_data]
  rw [runScript_step f _ store (.deleteWhere x) [] ?hne1 ?hp1]
  case hne1 =>
    rw [dropWhile_append_keep _ _ (by decide) (by decide)]
    simp [deletePfx]
  case hp1 =>
    rw [dropWhile_append_keep _ _ (by decide) (by decide)]
    rw [← List.append_assoc]
    exact parseOne_delete x [] hx
  simp [runScript_nil]

/-- `execScript` on the ingest / Linux-daemon script, quote-free clip. -/
theorem execScript_ingest (x : String) (store : List String) (hx : NoQuote x) :
    execScript (ingestQuery x) store = (runStmt (.insertOrIgnore x) store, true) := by
  have h1 : 0 < createTextStmt.data.length := List.length_pos.mpr (by decide)
  have hlen : 1 ≤ (ingestQuery x).data.length := by
    rw [ingestQuery_data]
    simp only [List.length_append]
    omega
  unfold execScript
  exact execScript_ingestQuery x store hx _ (by omega)

/-- `execScript` on the non-Linux daemon script, quote-free clip. -/
theorem execScript_daemonOther (x : String) (store : List String) (hx : NoQuote x) :
    execScript (daemonOtherQuery x) store = (runStmt (.insertOrIgnore x) store, true) := by
  have h1 : 0 < createStringStmt.data.length := List.length_pos.mpr (by decide)
  have hlen : 1 ≤ (daemonOtherQuery x).data.length := by
    rw [daemonOtherQuery_data]
    simp only [List.length_append]
    omega
  unfold execScript
  exact execScript_daemonOtherQuery x store hx _ (by omega)

/-- `execScript` on the delete query, quote-free clip. -/
theorem execScript_delete (x : String) (store : List String) (hx : NoQuote x) :
    execScript (deleteQuery x) store = (runStmt (.deleteWhere x) store, true) := by
  unfold execScript
  exact execScript_deleteQuery x store hx _ (by omega)

example :
    runKeys (AppState.new ["a", "b", "c"] ["a", "b", "c"]) [.down, .delete] =
      .running ⟨["a", "c"], ["a", "c"], some 1⟩ := by decide

example : ingestRun "" [] = ([""], some "", true) := by decide

example : daemonOtherTick [] "" none = (["pared_daemonized"], "pared_daemonized", true) := by
  decide

example : daemonLinuxTicks [] [some "foo", some "foo", none, some "foo"] = (["foo"], true) := by
  decide

/-! ## Store-level helper lemmas -/

theorem insertOrIgnore_mem (x : String) (store : List String) :
    x ∈ insertOrIgnore x store := by
  unfold insertOrIgnore
  split
  · assumption
  · simp

theorem insertOrIgnore_eq_of_mem {x : String} {store : List String}
    (h : x ∈ store) : insertOrIgnore x store = store := if_pos h

theorem insertOrIgnore_idem (x : String) (store : List String) :
    insertOrIgnore x (insertOrIgnore x store) = insertOrIgnore x store :=
  insertOrIgnore_eq_of_mem (insertOrIgnore_mem x store)

theorem insertOrIgnore_nodup (x : String) {store : List String}
    (h : store.Nodup) : (insertOrIgnore x store).Nodup := by
  unfold insertOrIgnore
  split
  · exact h
  · rename_i hx
    refine List.nodup_append.mpr ⟨h, List.nodup_singleton x, ?_⟩
    intro a ha hax
    simp only [List.mem_singleton] at hax
    exact hx (hax ▸ ha)

theorem insertOrIgnore_count (x : String) {store : List String} (h : store.Nodup) :
    List.count x (insertOrIgnore x store) = 1 := by
  unfold insertOrIgnore
  split
  · exact List.count_eq_one_of_mem h (by assumption)
  · rename_i hx
    rw [List.count_append, List.count_eq_zero.mpr hx]
    simp

/-! ## The claims -/

/-- C1: the round-trip claim fails on the code.  Inserting the clip
`O'Brien` builds `... VALUES ('O'Brien');`, a SQL syntax error: the run
errors and the store does not contain the clip.  Inserting `it''s` succeeds
but stores `it's` — an escape artifact, not the byte-identical clip. -/
theorem C1_roundtrip_fails :
    execScript (ingestQuery ("O" ++ sqs ++ "Brien")) [] = ([], false) ∧
    execScript (ingestQuery ("it" ++ sqs ++ sqs ++ "s")) [] =
      (["it" ++ sqs ++ "s"], true) := by
  decide

/-- C2: the Delete handler does not clamp the selection.  From snapshot
`["a","b"]` with selection 1 (reached by Down), Delete leaves the selection
at 1, outside `[0, N'-1] = [0, 0]` for the new size `N' = 1`. -/
theorem C2_delete_does_not_clamp :
    runKeys (AppState.new ["a", "b"] ["a", "b"]) [.down, .delete] =
      .running ⟨["a"], ["a"], some 1⟩ := by
  decide

/-- C3: the bounds invariant is violated in a reachable state.  From
snapshot `["a","b"]`, the keys Down, Delete reach a state with non-empty
snapshot `["a"]` and selection 1 = length; the next Enter indexes
`db_rows[1]` out of bounds and panics. -/
theorem C3_enter_out_of_bounds_panics :
    runKeys (AppState.new ["a", "b"] ["a", "b"]) [.down, .delete, .enter] =
      .panicked ⟨["a"], ["a"], some 1⟩ := by
  decide

/-- C4: the Ingestor has no emptiness check.  On zero-byte stdin it inserts
the empty string into the store (the store gains a row) and writes the empty
string to the clipboard, then exits successfully. -/
theorem C4_empty_stdin_not_ignored :
    ingestRun "" [] = ([""], some "", true) := by
  decide

/-- C5: the non-Linux daemon inserts the sentinel.  On its first tick with a
failed clipboard read (`previous = ""`), `unwrap_or` substitutes
`pared_daemonized`, which differs from `previous`, so the tick inserts the
sentinel into the store instead of leaving it unchanged. -/
theorem C5_failed_read_inserts_sentinel :
    daemonOtherTick [] "" none =
      (["pared_daemonized"], "pared_daemonized", true) := by
  decide

/-- C6 counterexample: for `x = O'Brien` the insert is a SQL syntax error,
so `insert(x)` fails and `list()` contains `x` zero times, not once. -/
theorem C6_counterexample :
    (execScript (ingestQuery ("O" ++ sqs ++ "Brien")) []).2 = false ∧
    List.count ("O" ++ sqs ++ "Brien")
      (execScript (ingestQuery ("O" ++ sqs ++ "Brien"))
        (execScript (ingestQuery ("O" ++ sqs ++ "Brien")) []).1).1 = 0 := by
  decide

/-- C6 (amended): for every non-empty quote-free text `x` and duplicate-free
store, `insert(x); insert(x)` equals a single `insert(x)`: neither insert
fails, the second leaves the store unchanged, and `list()` afterwards
contains `x` exactly once. -/
theorem C6_insert_idempotent (x : String) (store : List String)
    (_hne : x ≠ "") (hx : NoQuote x) (hnd : store.Nodup) :
    (execScript (ingestQuery x) store).2 = true ∧
    execScript (ingestQuery x) (execScript (ingestQuery x) store).1 =
      ((execScript (ingestQuery x) store).1, true) ∧
    List.count x (execScript (ingestQuery x)
      (execScript (ingestQuery x) store).1).1 = 1 := by
  rw [execScript_ingest x store hx]
  simp only [runStmt]
  rw [execScript_ingest x _ hx]
  simp only [runStmt]
  refine ⟨by trivial, ?_, ?_⟩
  · rw [insertOrIgnore_idem]
  · rw [insertOrIgnore_idem]
    exact insertOrIgnore_count x hnd

/-- C6 witness at `x = "abc"`, empty store. -/
theorem C6_insert_idempotent_witness :
    ("abc" : String) ≠ "" ∧ NoQuote "abc" ∧ ([] : List String).Nodup ∧
    ((execScript (ingestQuery "abc") []).2 = true ∧
     execScript (ingestQuery "abc") (execScript (ingestQuery "abc") []).1 =
       ((execScript (ingestQuery "abc") []).1, true) ∧
     List.count "abc" (execScript (ingestQuery "abc")
       (execScript (ingestQuery "abc") []).1).1 = 1) :=
  ⟨by decide, by decide, by decide,
    C6_insert_idempotent "abc" [] (by decide) (by decide) (by decide)⟩

/-- C7 counterexample: the clipboard holding the constant value
`pare_daemonized` for one tick (N = 1) leaves zero rows for it in the store
— the Linux daemon mistakes the user's genuine clip for its sentinel. -/
theorem C7_counterexample :
    (daemonLinuxTicks [] (List.replicate 1 (some "pare_daemonized"))).2 = true ∧
    List.count "pare_daemonized"
      (daemonLinuxTicks [] (List.replicate 1 (some "pare_daemonized"))).1 = 0 := by
  decide

/-- C7 (amended): for a quote-free clipboard value `v` other than the
sentinel `pare_daemonized`, held constant across `N ≥ 1` Linux-daemon ticks
over a duplicate-free store, the daemon never errors and the store
afterwards contains exactly one row `v`. -/
theorem C7_monitor_dedup (v : String) (store : List String) (n : Nat)
    (hv : v ≠ "pare_daemonized") (hq : NoQuote v) (hnd : store.Nodup)
    (hn : 1 ≤ n) :
    (daemonLinuxTicks store (List.replicate n (some v))).2 = true ∧
    List.count v (daemonLinuxTicks store (List.replicate n (some v))).1 = 1 := by
  have htick : ∀ s, daemonLinuxTick s (some v) = (insertOrIgnore v s, true) := by
    intro s
    unfold daemonLinuxTick
    simp only [Option.getD_some, if_pos hv, hv, if_true]
    rw [execScript_ingest v s hq]
    rfl
  have haux : ∀ m s, v ∈ s →
      daemonLinuxTicks s (List.replicate m (some v)) = (s, true) := by
    intro m
    induction m with
    | zero => intro s _; simp [daemonLinuxTicks]
    | succ m ih =>
      intro s hmem
      rw [List.replicate_succ]
      simp only [daemonLinuxTicks, htick s, insertOrIgnore_eq_of_mem hmem]
      simpa using ih s hmem
  obtain ⟨m, rfl⟩ : ∃ m, n = m + 1 := ⟨n - 1, by omega⟩
  rw [List.replicate_succ]
  simp only [daemonLinuxTicks, htick store]
  rw [haux m _ (insertOrIgnore_mem v store)]
  exact ⟨rfl, insertOrIgnore_count v hnd⟩

/-- C7 witness: clipboard holds `foo` across 5 ticks over an empty store. -/
theorem C7_monitor_dedup_witness :
    ("foo" : String) ≠ "pare_daemonized" ∧ NoQuote "foo" ∧
    ([] : List String).Nodup ∧ 1 ≤ 5 ∧
    ((daemonLinuxTicks [] (List.replicate 5 (some "foo"))).2 = true ∧
     List.count "foo" (daemonLinuxTicks [] (List.replicate 5 (some "foo"))).1 = 1) :=
  ⟨by decide, by decide, by decide, by decide,
    C7_monitor_dedup "foo" [] 5 (by decide) (by decide) (by decide) (by decide)⟩

/-- C8 counterexample: `delete(O'Brien)` on a store not containing it builds
`... WHERE clip = 'O'Brien';`, a SQL syntax error — the delete fails instead
of reporting not-found. -/
theorem C8_counterexample :
    ("O" ++ sqs ++ "Brien") ∉ (["a"] : List String) ∧
    execScript (deleteQuery ("O" ++ sqs ++ "Brien")) ["a"] = (["a"], false) := by
  decide

/-- C8 (amended): for a quote-free text `x` absent from the store, the
Browser's `DELETE` query succeeds and leaves the store's contents unchanged
(the statement simply affects zero rows; no not-found signal is surfaced). -/
theorem C8_delete_absent (x : String) (store : List String)
    (hx : NoQuote x) (hmem : x ∉ store) :
    execScript (deleteQuery x) store = (store, true) := by
  rw [execScript_delete x store hx]
  simp only [runStmt]
  congr 1
  refine List.filter_eq_self.mpr ?_
  intro a ha
  simp only [bne_iff_ne, ne_eq]
  intro h
  exact hmem (h ▸ ha)

/-- C8 witness at `x = "zz"`, store `["a"]`. -/
theorem C8_delete_absent_witness :
    NoQuote "zz" ∧ ("zz" : String) ∉ (["a"] : List String) ∧
    execScript (deleteQuery "zz") ["a"] = (["a"], true) :=
  ⟨by decide, by decide, C8_delete_absent "zz" ["a"] (by decide) (by decide)⟩

/-- C9: on an empty snapshot, Enter is ignored — same state, no clipboard
write, no error, the loop continues — and Esc still exits cleanly. -/
theorem C9_enter_on_empty_ignored (s : AppState) (h : s.db_rows = []) :
    handleKey s .enter = .ok s false none ∧ handleKey s .esc = .ok s true none := by
  constructor
  · simp [handleKey, h]
  · rfl

/-- C9 witness: a Browser session over the empty store. -/
theorem C9_enter_on_empty_ignored_witness :
    (AppState.new [] []).db_rows = [] ∧
    (handleKey (AppState.new [] []) .enter = .ok (AppState.new [] []) false none ∧
     handleKey (AppState.new [] []) .esc = .ok (AppState.new [] []) true none) :=
  ⟨rfl, C9_enter_on_empty_ignored (AppState.new [] []) rfl⟩

/-- C10 counterexample: deleting the selected clip
`a'; DELETE FROM clips WHERE clip = 'b` (a value the store can legitimately
contain) executes two injected `DELETE` statements: rows `a` and `b` —
both different from the selected text — are removed from the store, while
the selected row itself survives. -/
theorem C10_counterexample :
    runKeys (AppState.new ["a", "b", injClip] ["a", "b", injClip])
        [.down, .down, .delete] =
      .running ⟨["a", "b"], [injClip], some 2⟩ := by
  decide

/-- C10 (amended): every key other than Delete leaves the store unchanged
(including Enter, whether it writes the clipboard or panics); Delete with an
in-bounds selection whose text is quote-free succeeds, erases the selected
index from the snapshot, keeps the selection, and sets the store to its
filtered form with exactly the rows equal to the selected text removed —
at most one row (`List.erase`) when the store is duplicate-free. -/
theorem C10_browser_frame (s : AppState) :
    (∀ k, k ≠ Key.delete → storeOf (handleKey s k) = s.store) ∧
    (∀ i, ∀ h : i < s.db_rows.length, s.selected = some i →
      NoQuote (s.db_rows.get ⟨i, h⟩) →
      handleKey s Key.delete =
        .ok ⟨s.db_rows.eraseIdx i,
             s.store.filter (fun r => r != s.db_rows.get ⟨i, h⟩),
             s.selected⟩ false none ∧
      (s.store.Nodup →
        s.store.filter (fun r => r != s.db_rows.get ⟨i, h⟩) =
          s.store.erase (s.db_rows.get ⟨i, h⟩))) := by
  constructor
  · intro k hk
    cases k with
    | esc => rfl
    | down => rfl
    | up => rfl
    | other => rfl
    | delete => exact absurd rfl hk
    | enter =>
      simp only [handleKey]
      split
      · rfl
      · split
        · rfl
        · split
          · rfl
          · rfl
  · intro i h hsel hq
    have hne : ¬ s.db_rows.isEmpty := by
      cases hr : s.db_rows with
      | nil => rw [hr] at h; simp at h
      | cons a l => simp [hr]
    constructor
    · unfold handleKey
      rw [hsel]
      simp only [Option.getD_some, hne, if_false, dif_pos h]
      rw [execScript_delete _ _ hq]
      simp [runStmt]
    · intro hnd
      exact (hnd.erase_eq_filter _).symm

/-- C10 witness: Up leaves the store unchanged, and Delete of the selected
quote-free clip `a` from the store `["a", "b"]` removes exactly that row. -/
theorem C10_browser_frame_witness :
    (Key.up ≠ Key.delete ∧
      storeOf (handleKey (AppState.new ["a", "b"] ["a", "b"]) Key.up) =
        ["a", "b"]) ∧
    (NoQuote "a" ∧
      handleKey (AppState.new ["a", "b"] ["a", "b"]) Key.delete =
        .ok ⟨["b"], List.filter (fun r => r != "a") ["a", "b"], some 0⟩
          false none) :=
  ⟨⟨by decide, (C10_browser_frame (AppState.new ["a", "b"] ["a", "b"])).1 Key.up (by decide)⟩,
   ⟨by decide,
     ((C10_browser_frame (AppState.new ["a", "b"] ["a", "b"])).2 0 (by decide) rfl
       (by decide)).1⟩⟩

end Pare
